import Mathlib

/-!
Verification development for a bookstore catalog and order-processing
backend (genres, books, transactions over a relational store with
soft-delete tombstones).  The definitions below are a shallow embedding of
the controller code: Prisma tables become lists of records inside a `DB`
state, `findFirst`/`findUnique` become `List.find?`, and each controller
action becomes a pure function from the current state and the request to
the next state and an HTTP-style response.
-/

namespace Bookstore

/-- A registered user (`users` table). -/
structure User where
  id : String
  username : String
  email : String
deriving Repr, DecidableEq

/-- A genre row (`genres` table); `deleted_at` is the soft-delete tombstone. -/
structure Genre where
  id : String
  name : String
  deleted_at : Option Nat
deriving Repr, DecidableEq

/-- A book row (`books` table). `stock_quantity` is an integer so that the
model can express the store actually going negative. -/
structure Book where
  id : String
  title : String
  writer : String
  publisher : String
  publication_year : Option Int
  description : Option String
  price : Rat
  stock_quantity : Int
  genre_id : String
  deleted_at : Option Nat
deriving Repr, DecidableEq

/-- An order row (`orders` table); ids are allocated from a counter. -/
structure Order where
  id : Nat
  user_id : String
  totalPrice : Rat
  created_at : Nat
deriving Repr, DecidableEq

/-- An order line item (`order_items` table). -/
structure OrderItem where
  id : Nat
  order_id : Nat
  book_id : String
  quantity : Int
deriving Repr, DecidableEq

/-- The relational store: one list per table plus id counters for the
rows whose ids the database generates. -/
structure DB where
  users : List User
  genres : List Genre
  books : List Book
  orders : List Order
  orderItems : List OrderItem
  nextOrderId : Nat
  nextOrderItemId : Nat
deriving Repr, DecidableEq

/-- JavaScript `String.prototype.trim`: strip leading and trailing
whitespace (modelled transparently over the character list so that the
kernel can evaluate it). -/
def jsTrim (s : String) : String :=
  ⟨((s.data.dropWhile Char.isWhitespace).reverse.dropWhile Char.isWhitespace).reverse⟩

/-- `prisma.user.findUnique({ where: { id } })`. -/
def findUser (users : List User) (uid : String) : Option User :=
  users.find? (fun u => u.id == uid)

/-- `prisma.book.findFirst({ where: { id, deleted_at: null } })`. -/
def findBookFirst (books : List Book) (bid : String) : Option Book :=
  books.find? (fun b => b.id == bid && b.deleted_at.isNone)

/-- `prisma.book.findUnique({ where: { id } })` — note: no tombstone filter. -/
def findBookUnique (books : List Book) (bid : String) : Option Book :=
  books.find? (fun b => b.id == bid)

/-- `prisma.genre.findFirst({ where: { id, deleted_at: null } })`. -/
def findGenreFirst (genres : List Genre) (gid : String) : Option Genre :=
  genres.find? (fun g => g.id == gid && g.deleted_at.isNone)

/-- Genre lookup by id with no tombstone filter (relation `include`). -/
def findGenreUnique (genres : List Genre) (gid : String) : Option Genre :=
  genres.find? (fun g => g.id == gid)

/-- Stock of the book with the given id, if present. -/
def stockOf (books : List Book) (bid : String) : Option Int :=
  (findBookUnique books bid).map (fun b => b.stock_quantity)

/-- Title of the book with the given id, if present. -/
def titleOf (books : List Book) (bid : String) : Option String :=
  (findBookUnique books bid).map (fun b => b.title)

/-! ## Transaction controller (`transaction.controller.ts`) -/

/-- One element of the request's `items` array. -/
structure TxItem where
  book_id : String
  quantity : Int
deriving Repr, DecidableEq

/-- The body of `POST /transactions`; absent JSON fields are `none`. -/
structure TxReq where
  user_id : Option String
  items : Option (List TxItem)
deriving Repr, DecidableEq

/-- The user summary embedded in transaction responses. -/
structure UserSummary where
  id : String
  username : String
  email : String
deriving Repr, DecidableEq

/-- The book summary embedded in each response item. -/
structure TxRespBook where
  id : String
  title : String
  writer : String
  price : Rat
  genre : String
deriving Repr, DecidableEq

/-- One shaped response item of a created transaction. -/
structure TxRespItem where
  id : Nat
  book : TxRespBook
  quantity : Int
  subtotal : Rat
deriving Repr, DecidableEq

/-- The `data` payload of a successful `createTransaction`. -/
structure TxData where
  transaction_id : Nat
  user : UserSummary
  total_quantity : Int
  total_price : Rat
  items : List TxRespItem
  created_at : Nat
deriving Repr, DecidableEq

/-- Responses of `createTransaction`, tagged by their HTTP status. -/
inductive TxResp where
  | badRequest (message : String)
  | notFound (message : String)
  | created (data : TxData)
  | internal (message : String)
deriving Repr, DecidableEq

/-- The HTTP status code the controller attaches to each response. -/
def TxResp.statusCode : TxResp → Nat
  | .badRequest _ => 400
  | .notFound _ => 404
  | .created _ => 201
  | .internal _ => 500

def userIdRequiredMsg : String := "user_id is required"

def itemsEmptyMsg : String := "items cannot be empty and must be an array"

def itemFieldsMsg : String := "Each item must have book_id and quantity"

def quantityPositiveMsg : String := "Quantity must be greater than 0"

def userNotFoundMsg : String := "User not found"

def bookNotFoundMsg (bid : String) : String :=
  "Book with id " ++ bid ++ " not found"

def insufficientStockMsg (title : String) (available requested : Int) : String :=
  "Insufficient stock for book \"" ++ title ++ "\". Available: " ++
    toString available ++ ", Requested: " ++ toString requested

/-- The per-item pre-validation pass (lines 65-104 of the controller):
halts on the first failing item, mutates nothing. `!item.book_id` and
`!item.quantity` are JavaScript falsiness checks. -/
def validateItems (db : DB) : List TxItem → Option TxResp
  | [] => none
  | item :: rest =>
    if item.book_id = "" ∨ item.quantity = 0 then
      some (.badRequest itemFieldsMsg)
    else if item.quantity ≤ 0 then
      some (.badRequest quantityPositiveMsg)
    else
      match findBookFirst db.books item.book_id with
      | none => some (.notFound (bookNotFoundMsg item.book_id))
      | some book =>
        if book.stock_quantity < item.quantity then
          some (.badRequest
            (insufficientStockMsg book.title book.stock_quantity item.quantity))
        else validateItems db rest

/-- `prisma.book.update({ where: { id }, data: { stock_quantity:
{ decrement } } })`: unconditional decrement of the row with that id. -/
def decStock (bid : String) (q : Int) (books : List Book) : List Book :=
  books.map (fun b =>
    if b.id == bid then { b with stock_quantity := b.stock_quantity - q } else b)

/-- The item-materialization loop (lines 115-144): re-fetch the book with
`findUnique` (no tombstone filter), silently skip (`continue`) when it is
absent, otherwise accumulate totals, create the order item, and decrement
the stock unconditionally.  Returns the new state and the accumulated
`totalQuantity` and `totalPrice`. -/
def materializeItems (orderId : Nat) :
    DB → Int → Rat → List TxItem → DB × Int × Rat
  | db, tq, tp, [] => (db, tq, tp)
  | db, tq, tp, item :: rest =>
    match findBookUnique db.books item.book_id with
    | none => materializeItems orderId db tq tp rest
    | some book =>
      let db1 : DB :=
        { db with
          orderItems :=
            db.orderItems ++ [⟨db.nextOrderItemId, orderId, book.id, item.quantity⟩],
          nextOrderItemId := db.nextOrderItemId + 1 }
      let db2 : DB := { db1 with books := decStock book.id item.quantity db1.books }
      materializeItems orderId db2 (tq + item.quantity)
        (tp + book.price * (item.quantity : Rat)) rest

/-- `prisma.order.create({ data: { user_id, totalPrice: 0 } })`. -/
def orderShell (db : DB) (uid : String) (now : Nat) : DB :=
  { db with
    orders := db.orders ++ [⟨db.nextOrderId, uid, 0, now⟩],
    nextOrderId := db.nextOrderId + 1 }

/-- `prisma.order.update({ where: { id }, data: { totalPrice } })`. -/
def finalizeOrder (db : DB) (orderId : Nat) (tp : Rat) : DB :=
  { db with
    orders := db.orders.map (fun o =>
      if o.id == orderId then { o with totalPrice := tp } else o) }

/-- The reloaded order's `items` relation: every order item row anchored
to the order. -/
def newOrderItems (db : DB) (orderId : Nat) : List OrderItem :=
  db.orderItems.filter (fun oi => oi.order_id == orderId)

/-- Shape one response item (lines 178-189): join the order item with its
live book and genre; a dangling reference throws, i.e. yields `none`. -/
def buildRespItem (db : DB) (oi : OrderItem) : Option TxRespItem :=
  match findBookUnique db.books oi.book_id with
  | none => none
  | some b =>
    match findGenreUnique db.genres b.genre_id with
    | none => none
    | some g =>
      some ⟨oi.id, ⟨b.id, b.title, b.writer, b.price, g.name⟩, oi.quantity,
        b.price * (oi.quantity : Rat)⟩

/-- Shape the whole response item list; any dangling join fails the call. -/
def buildRespItems (db : DB) : List OrderItem → Option (List TxRespItem)
  | [] => some []
  | oi :: rest =>
    match buildRespItem db oi, buildRespItems db rest with
    | some ri, some ris => some (ri :: ris)
    | _, _ => none

/-- Steps 4-7 of `createTransaction`, entered once all validation passed:
create the order shell, run the materialization loop, finalize the total,
reload and shape the response. -/
def createTransactionGo (db : DB) (now : Nat) (uid : String) (user : User)
    (items : List TxItem) : DB × TxResp :=
  match materializeItems db.nextOrderId (orderShell db uid now) 0 0 items with
  | (dbM, tq, tp) =>
    let dbF := finalizeOrder dbM db.nextOrderId tp
    match buildRespItems dbF (newOrderItems dbF db.nextOrderId) with
    | none => (dbF, .internal "Failed to create transaction")
    | some ris =>
      (dbF, .created
        ⟨db.nextOrderId, ⟨user.id, user.username, user.email⟩, tq, tp, ris, now⟩)

/-- `createTransaction` (lines 21-203): input validation, actor check,
per-item pre-validation, then the mutation sequence. -/
def createTransaction (db : DB) (now : Nat) (req : TxReq) : DB × TxResp :=
  match req.user_id with
  | none => (db, .badRequest userIdRequiredMsg)
  | some uid =>
    if uid = "" then (db, .badRequest userIdRequiredMsg)
    else
      match req.items with
      | none => (db, .badRequest itemsEmptyMsg)
      | some items =>
        if items.isEmpty then (db, .badRequest itemsEmptyMsg)
        else
          match findUser db.users uid with
          | none => (db, .notFound userNotFoundMsg)
          | some user =>
            match validateItems db items with
            | some resp => (db, resp)
            | none => createTransactionGo db now uid user items

/-! ## Book controller (`book.controller.ts`) -/

/-- The body of `POST /books` and `PATCH /books/:book_id`; absent JSON
fields are `none`. -/
structure BookReq where
  title : Option String
  writer : Option String
  publisher : Option String
  publication_year : Option Int
  description : Option String
  price : Option Rat
  stock_quantity : Option Int
  genre_id : Option String
deriving Repr, DecidableEq

/-- Responses of the book endpoints, tagged by their HTTP status. -/
inductive BookResp where
  | created (book : Book)
  | ok (book : Book) (genreName : String)
  | badRequest (message : String)
  | notFound (message : String)
  | conflict (message : String)
  | internal (message : String)
deriving Repr, DecidableEq

/-- The HTTP status code attached to each book response. -/
def BookResp.statusCode : BookResp → Nat
  | .created _ => 201
  | .ok _ _ => 200
  | .badRequest _ => 400
  | .notFound _ => 404
  | .conflict _ => 409
  | .internal _ => 500

def createBookMissingMsg : String :=
  "Semua field wajib diisi (title, writer, publisher, price, stock_quantity, genre_id)"

def genreMissingMsg : String := "Genre tidak ditemukan"

def bookTitleTakenMsg : String := "Judul buku sudah ada"

def bookMissingMsg : String := "Buku tidak ditemukan"

def emptyTitleMsg : String := "Judul buku tidak boleh kosong"

def negativePriceMsg : String := "Harga tidak boleh negatif"

def negativeStockMsg : String := "Stok tidak boleh negatif"

/-- JavaScript falsiness of an optional string (`undefined` or `""`). -/
def strFalsy : Option String → Bool
  | none => true
  | some s => s == ""

/-- JavaScript falsiness of an optional numeric value (`undefined` or `0`). -/
def ratFalsy : Option Rat → Bool
  | none => true
  | some q => decide (q = 0)

/-- JavaScript falsiness of an optional integer (`undefined` or `0`). -/
def intFalsy : Option Int → Bool
  | none => true
  | some n => decide (n = 0)

/-- The guard `!title || !writer || !publisher || !price || !stock_quantity
|| !genre_id` of `createBook` (line 429): truthiness, not presence. -/
def bookFieldMissing (req : BookReq) : Bool :=
  strFalsy req.title || strFalsy req.writer || strFalsy req.publisher ||
    ratFalsy req.price || intFalsy req.stock_quantity || strFalsy req.genre_id

/-- `prisma.book.findFirst({ where: { title, deleted_at: null } })`. -/
def findBookByTitle (books : List Book) (t : String) : Option Book :=
  books.find? (fun b => b.title == t && b.deleted_at.isNone)

/-- `createBook` (lines 413-497).  The database-generated id of the new
book is passed in as `newId`. -/
def createBook (db : DB) (newId : String) (req : BookReq) : DB × BookResp :=
  if bookFieldMissing req then (db, .badRequest createBookMissingMsg)
  else
    match req.title, req.writer, req.publisher, req.price, req.stock_quantity,
        req.genre_id with
    | some title, some writer, some publisher, some price, some stock, some gid =>
      let cleanGenreId := jsTrim gid
      match findGenreFirst db.genres cleanGenreId with
      | none => (db, .notFound genreMissingMsg)
      | some _ =>
        match findBookByTitle db.books (jsTrim title) with
        | some _ => (db, .conflict bookTitleTakenMsg)
        | none =>
          let book : Book :=
            { id := newId
              title := jsTrim title
              writer := jsTrim writer
              publisher := jsTrim publisher
              publication_year :=
                match req.publication_year with
                | some y => if y = 0 then none else some y
                | none => none
              description := req.description.map jsTrim
              price := price
              stock_quantity := stock
              genre_id := cleanGenreId
              deleted_at := none }
          ({ db with books := db.books ++ [book] }, .created book)
    | _, _, _, _, _, _ => (db, .badRequest createBookMissingMsg)

/-- The field-normalization and update step of `updateBook`
(lines 638-699), entered after the book (and, when supplied, the genre)
was found.  `genreVal` is the value `updateData.genre_id` ends up with.
The emptiness guard on the title is modelled verbatim from the source:
`updateData.title && updateData.title === ""`. -/
def updateBookApply (db : DB) (cleanBookId : String) (req : BookReq)
    (genreVal : Option String) : DB × BookResp :=
  let newTitle := req.title.map jsTrim
  let titleEmptyCheck :=
    match newTitle with
    | some t => !(t == "") && (t == "")
    | none => false
  if titleEmptyCheck then (db, .badRequest emptyTitleMsg)
  else if (match req.price with | some p => decide (p < 0) | none => false) then
    (db, .badRequest negativePriceMsg)
  else if (match req.stock_quantity with | some n => decide (n < 0) | none => false) then
    (db, .badRequest negativeStockMsg)
  else
    let upd : Book → Book := fun b =>
      { b with
        title := newTitle.getD b.title
        writer := (req.writer.map jsTrim).getD b.writer
        publisher := (req.publisher.map jsTrim).getD b.publisher
        publication_year :=
          match req.publication_year with
          | some y => some y
          | none => b.publication_year
        description :=
          match req.description.map jsTrim with
          | some d => some d
          | none => b.description
        price := req.price.getD b.price
        stock_quantity := req.stock_quantity.getD b.stock_quantity
        genre_id := genreVal.getD b.genre_id }
    let db' : DB :=
      { db with books := db.books.map (fun b =>
          if b.id == cleanBookId then upd b else b) }
    match findBookUnique db'.books cleanBookId with
    | none => (db', .internal "Gagal update buku")
    | some updated =>
      match findGenreUnique db.genres updated.genre_id with
      | none => (db', .internal "Gagal update buku")
      | some g => (db', .ok updated g.name)

/-- `updateBook` (lines 590-700): existence check, optional genre check
(`if (data.genre_id)` is a truthiness test, so a present-but-empty
genre_id skips validation and is written through untrimmed), then the
normalization/validation/update step. -/
def updateBook (db : DB) (book_id : String) (req : BookReq) : DB × BookResp :=
  let cleanBookId := jsTrim book_id
  match findBookFirst db.books cleanBookId with
  | none => (db, .notFound bookMissingMsg)
  | some _ =>
    match req.genre_id with
    | some g =>
      if g = "" then updateBookApply db cleanBookId req (some "")
      else
        match findGenreFirst db.genres (jsTrim g) with
        | none => (db, .notFound genreMissingMsg)
        | some _ => updateBookApply db cleanBookId req (some (jsTrim g))
    | none => updateBookApply db cleanBookId req none

/-! ## Genre controller (`genre.controller.ts`) -/

/-- The book summary listed in the in-use payload of `deleteGenre`. -/
structure BookSummary where
  id : String
  title : String
  writer : String
deriving Repr, DecidableEq

/-- Responses of the genre endpoints, tagged by their HTTP status. -/
inductive GenreResp where
  | created (genre : Genre)
  | deleted (id : String) (name : String) (deleted_at : Option Nat)
  | inUse (message : String) (genre_name : String) (active_books_count : Nat)
      (books : List BookSummary)
  | badRequest (message : String)
  | notFound (message : String)
  | conflict (message : String)
deriving Repr, DecidableEq

/-- The HTTP status code attached to each genre response. -/
def GenreResp.statusCode : GenreResp → Nat
  | .created _ => 201
  | .deleted _ _ _ => 200
  | .inUse _ _ _ _ => 400
  | .badRequest _ => 400
  | .notFound _ => 404
  | .conflict _ => 409

def genreNameRequiredMsg : String := "Nama genre wajib diisi"

def genreExistsMsg : String := "Genre sudah ada"

def genreDeletedOrMissingMsg : String := "Genre tidak ditemukan atau sudah dihapus"

def genreInUseMsg (n : Nat) : String :=
  "Tidak dapat menghapus genre. Masih ada " ++ toString n ++
    " buku aktif dengan genre ini"

/-- `createGenre` (lines 7-55 of the genre controller): falsy/blank name
fails 400, a non-deleted genre with the same trimmed name fails 409,
otherwise the trimmed name is persisted.  `newId` is the database-generated
id of the new row. -/
def createGenre (db : DB) (newId : String) (name : Option String) :
    DB × GenreResp :=
  match name with
  | none => (db, .badRequest genreNameRequiredMsg)
  | some n =>
    if jsTrim n = "" then (db, .badRequest genreNameRequiredMsg)
    else
      match db.genres.find? (fun g => g.name == jsTrim n && g.deleted_at.isNone) with
      | some _ => (db, .conflict genreExistsMsg)
      | none =>
        let g : Genre := ⟨newId, jsTrim n, none⟩
        ({ db with genres := db.genres ++ [g] }, .created g)

/-- The non-deleted books referencing a genre (the `books` relation of the
genre filtered by `deleted_at: null`). -/
def activeBooksOfGenre (books : List Book) (gid : String) : List Book :=
  books.filter (fun b => b.genre_id == gid && b.deleted_at.isNone)

/-- The summary `deleteGenre` puts in the in-use payload. -/
def bookSummary (b : Book) : BookSummary := ⟨b.id, b.title, b.writer⟩

/-- `deleteGenre` (lines 232-311 of the genre controller): 404 when the
genre is absent or tombstoned, 400 with the list of blocking active books
when any reference it, otherwise tombstone it. -/
def deleteGenre (db : DB) (now : Nat) (genre_id : String) : DB × GenreResp :=
  match findGenreFirst db.genres genre_id with
  | none => (db, .notFound genreDeletedOrMissingMsg)
  | some genre =>
    let activeBooks := activeBooksOfGenre db.books genre_id
    if 0 < activeBooks.length then
      (db, .inUse (genreInUseMsg activeBooks.length) genre.name
        activeBooks.length (activeBooks.map bookSummary))
    else
      let db' : DB :=
        { db with genres := db.genres.map (fun g =>
            if g.id == genre_id then { g with deleted_at := some now } else g) }
      (db', .deleted genre.id genre.name (some now))

/-! ## Transaction statistics (`getTransactionStatistics`, lines 344-403) -/

/-- The `data` payload of `GET /transactions/statistics`. -/
structure StatsData where
  total_transactions : Nat
  average_transaction_value : Rat
  most_popular_genre : Option String
  least_popular_genre : Option String
deriving Repr, DecidableEq

/-- One row per order item that joins to a non-deleted book and a
non-deleted genre, projected to the genre name (the `FROM order_items`
joins of the two raw aggregate queries). -/
def statRows (db : DB) : List String :=
  db.orderItems.filterMap (fun oi =>
    match findBookUnique db.books oi.book_id with
    | none => none
    | some b =>
      if b.deleted_at.isSome then none
      else
        match findGenreUnique db.genres b.genre_id with
        | none => none
        | some g => if g.deleted_at.isSome then none else some g.name)

/-- The `GROUP BY g.name` result: each genre name with its item count. -/
def genreCounts (db : DB) : List (String × Nat) :=
  (statRows db).dedup.map (fun n => (n, (statRows db).count n))

/-- `ORDER BY total DESC LIMIT 1`: a row of maximal count (the database's
tie-break is unspecified; the model keeps the earliest such row). -/
def pickTop : List (String × Nat) → Option (String × Nat)
  | [] => none
  | p :: rest =>
    match pickTop rest with
    | none => some p
    | some q => if p.2 < q.2 then some q else some p

/-- `ORDER BY total ASC LIMIT 1`: a row of minimal count. -/
def pickLeast : List (String × Nat) → Option (String × Nat)
  | [] => none
  | p :: rest =>
    match pickLeast rest with
    | none => some p
    | some q => if q.2 < p.2 then some q else some p

/-- `getTransactionStatistics`: order count, `AVG(totalPrice)` with the
`|| 0` null-coalescing, and the most/least purchased genre names. -/
def getTransactionStatistics (db : DB) : StatsData :=
  let total := db.orders.length
  let avg : Option Rat :=
    if db.orders.isEmpty then none
    else some ((db.orders.map (fun o => o.totalPrice)).sum / (total : Rat))
  { total_transactions := total
    average_transaction_value :=
      match avg with
      | none => 0
      | some a => a
    most_popular_genre := (pickTop (genreCounts db)).map (fun p => p.1)
    least_popular_genre := (pickLeast (genreCounts db)).map (fun p => p.1) }

/-- Referential integrity of order items: every order item row is anchored
to an existing order. -/
def ordersCoverItems (db : DB) : Bool :=
  db.orderItems.all (fun oi => db.orders.any (fun o => oi.order_id == o.id))

/-! ## Derived notions used by the statements -/

/-- Price of the book row with this id (the price the materialization loop
reads through `findUnique`), defaulting to `0` when the row is absent. -/
def priceAt (books : List Book) (bid : String) : Rat :=
  match findBookUnique books bid with
  | some b => b.price
  | none => 0

/-- One item of a request is valid against the current catalog: the item
is well-formed, its quantity is positive, and its book exists, is
non-deleted, and has at least the requested stock — exactly the conditions
the pre-validation pass checks. -/
def itemValid (db : DB) (i : TxItem) : Bool :=
  !(i.book_id == "") && decide (0 < i.quantity) &&
    (match findBookFirst db.books i.book_id with
     | none => false
     | some b => decide (i.quantity ≤ b.stock_quantity))

/-- Referential integrity of books: every book's genre reference resolves. -/
def genresCover (genres : List Genre) (books : List Book) : Prop :=
  ∀ b ∈ books, (findGenreUnique genres b.genre_id).isSome = true

/-! ## Concrete fixtures for the executable scenarios -/

/-- A fixture user. -/
def uA : User := ⟨"u1", "alice", "alice@mail.test"⟩

/-- A fixture genre. -/
def gA : Genre := ⟨"g1", "Sci-Fi", none⟩

/-- A second fixture genre, with no books. -/
def gB : Genre := ⟨"g2", "Drama", none⟩

/-- The spec's fixture book: Dune, price 100, stock 5, genre Sci-Fi. -/
def duneA : Book := ⟨"b1", "Dune", "Herbert", "Chilton", some 1965, none, 100, 5, "g1", none⟩

/-- Dune with stock 3. -/
def duneB : Book := { duneA with stock_quantity := 3 }

/-- A second fixture book in the second genre. -/
def bookB : Book := ⟨"b2", "Hamlet", "Shakespeare", "Folio", none, none, 50, 4, "g2", none⟩

/-- A deleted fixture book. -/
def bookDel : Book := { bookB with id := "b3", title := "Gone", deleted_at := some 1 }

/-- Baseline store: one user, one genre, Dune with stock 5, no orders. -/
def dbA : DB := ⟨[uA], [gA], [duneA], [], [], 1, 1⟩

/-- Store holding Dune with stock 3. -/
def dbB : DB := ⟨[uA], [gA], [duneB], [], [], 1, 1⟩

/-- Store with two genres, one of which has an active book. -/
def dbC : DB := ⟨[uA], [gA, gB], [duneA], [], [], 1, 1⟩

/-- Store with two orders and three order items across two genres. -/
def dbD : DB :=
  ⟨[uA], [gA, gB], [duneA, bookB],
    [⟨1, "u1", 100, 0⟩, ⟨2, "u1", 50, 0⟩],
    [⟨1, 1, "b1", 1⟩, ⟨2, 1, "b1", 2⟩, ⟨3, 2, "b2", 1⟩], 3, 4⟩

/-- Store whose catalog includes a soft-deleted book (`b3`). -/
def dbDel : DB := ⟨[uA], [gA, gB], [duneA, bookDel], [], [], 1, 1⟩

/-- A `PATCH /books` body whose title trims to the empty string. -/
def reqBlankTitle : BookReq := ⟨some "   ", none, none, none, none, none, none, none⟩

/-- A `POST /books` body with all six required fields present and price 0. -/
def reqZeroPrice : BookReq :=
  ⟨some "Xenos", some "Ward", some "BL", none, none, some 0, some 4, some "g1"⟩

/-! ## General lemmas about the store primitives -/

theorem find?_map_of_fix {α : Type} (f : α → α) (p : α → Bool)
    (hf : ∀ a, p (f a) = p a) (l : List α) :
    (l.map f).find? p = (l.find? p).map f := by
  rw [List.find?_map]
  have hp : p ∘ f = p := funext hf
  rw [hp]

theorem find?_isSome_of_stronger {α : Type} (p q : α → Bool)
    (hpq : ∀ a, p a = true → q a = true) (l : List α)
    (h : (l.find? p).isSome = true) : (l.find? q).isSome = true := by
  rw [List.find?_isSome] at h ⊢
  obtain ⟨x, hx, hpx⟩ := h
  exact ⟨x, hx, hpq x hpx⟩

theorem decStock_pred_fix (bid tid : String) (q : Int) (b : Book) :
    ((if b.id == tid then { b with stock_quantity := b.stock_quantity - q } else b).id
        == bid)
      = (b.id == bid) := by
  cases h : b.id == tid <;> simp [h]

theorem findBookUnique_decStock (books : List Book) (bid tid : String) (q : Int) :
    findBookUnique (decStock tid q books) bid =
      (findBookUnique books bid).map (fun b =>
        if b.id == tid then { b with stock_quantity := b.stock_quantity - q } else b) := by
  unfold findBookUnique decStock
  exact find?_map_of_fix _ _ (fun b => decStock_pred_fix bid tid q b) books

theorem priceAt_decStock (books : List Book) (bid tid : String) (q : Int) :
    priceAt (decStock tid q books) bid = priceAt books bid := by
  unfold priceAt
  rw [findBookUnique_decStock]
  cases h : findBookUnique books bid with
  | none => simp
  | some b => by_cases hc : b.id = tid <;> simp [hc]

theorem findBookUnique_decStock_isSome (books : List Book) (bid tid : String) (q : Int) :
    (findBookUnique (decStock tid q books) bid).isSome
      = (findBookUnique books bid).isSome := by
  rw [findBookUnique_decStock]
  cases findBookUnique books bid <;> simp

theorem findBookUnique_id (books : List Book) (bid : String) (b : Book)
    (h : findBookUnique books bid = some b) : b.id = bid := by
  have := List.find?_some h
  simpa using this

theorem findBookUnique_mem (books : List Book) (bid : String) (b : Book)
    (h : findBookUnique books bid = some b) : b ∈ books :=
  List.mem_of_find?_eq_some h

theorem findBookFirst_isSome_unique (books : List Book) (bid : String)
    (h : (findBookFirst books bid).isSome = true) :
    (findBookUnique books bid).isSome = true := by
  unfold findBookFirst at h
  unfold findBookUnique
  refine find?_isSome_of_stronger _ _ (fun a ha => ?_) books h
  exact (Bool.and_eq_true_iff.mp ha).1

theorem findGenreFirst_isSome_unique (genres : List Genre) (gid : String)
    (h : (findGenreFirst genres gid).isSome = true) :
    (findGenreUnique genres gid).isSome = true := by
  unfold findGenreFirst at h
  unfold findGenreUnique
  refine find?_isSome_of_stronger _ _ (fun a ha => ?_) genres h
  exact (Bool.and_eq_true_iff.mp ha).1

/-! ## Lemmas about the materialization loop -/

theorem materializeItems_stock (orderId : Nat) (items : List TxItem) :
    ∀ (db : DB) (tq : Int) (tp : Rat) (bid : String) (b : Book),
      findBookUnique db.books bid = some b →
      findBookUnique (materializeItems orderId db tq tp items).1.books bid =
        some { b with stock_quantity := b.stock_quantity -
          ((items.filter (fun i => i.book_id == bid)).map (fun i => i.quantity)).sum } := by
  induction items with
  | nil =>
    intro db tq tp bid b hb
    simpa [materializeItems] using hb
  | cons item rest ih =>
    intro db tq tp bid b hb
    by_cases hbid : item.book_id = bid
    · subst hbid
      simp only [materializeItems, hb]
      have hb2 : findBookUnique (decStock b.id item.quantity db.books) item.book_id
          = some { b with stock_quantity := b.stock_quantity - item.quantity } := by
        rw [findBookUnique_decStock, hb]
        simp
      rw [ih _ _ _ _ _ hb2]
      simp only [List.filter_cons, beq_self_eq_true, if_true, List.map_cons,
        List.sum_cons, Option.some.injEq, Book.mk.injEq, true_and, and_true]
      omega
    · have hfilter : ((item :: rest).filter (fun i => i.book_id == bid))
          = rest.filter (fun i => i.book_id == bid) := by
        simp [List.filter_cons, hbid]
      rw [hfilter]
      cases hfb : findBookUnique db.books item.book_id with
      | none =>
        simp only [materializeItems, hfb]
        exact ih _ _ _ _ _ hb
      | some book =>
        have hbookid : book.id = item.book_id := findBookUnique_id _ _ _ hfb
        simp only [materializeItems, hfb]
        have hb2 : findBookUnique (decStock book.id item.quantity db.books) bid = some b := by
          rw [findBookUnique_decStock, hb]
          have hne : (b.id == book.id) = false := by
            rw [hbookid, findBookUnique_id _ _ _ hb]
            exact beq_eq_false_iff_ne.mpr (fun hh => hbid hh.symm)
          simp only [Option.map_some', hne]
          rfl
        exact ih _ _ _ _ _ hb2

theorem materializeItems_frame (orderId : Nat) (items : List TxItem) :
    ∀ (db : DB) (tq : Int) (tp : Rat),
      (materializeItems orderId db tq tp items).1.users = db.users ∧
      (materializeItems orderId db tq tp items).1.genres = db.genres ∧
      (materializeItems orderId db tq tp items).1.orders = db.orders ∧
      (materializeItems orderId db tq tp items).1.nextOrderId = db.nextOrderId := by
  induction items with
  | nil => intro db tq tp; simp [materializeItems]
  | cons item rest ih =>
    intro db tq tp
    cases hfb : findBookUnique db.books item.book_id with
    | none =>
      simp only [materializeItems, hfb]
      exact ih _ _ _
    | some book =>
      simp only [materializeItems, hfb]
      exact ih _ _ _

theorem materializeItems_books_isSome (orderId : Nat) (items : List TxItem)
    (db : DB) (tq : Int) (tp : Rat) (bid : String)
    (h : (findBookUnique db.books bid).isSome = true) :
    (findBookUnique (materializeItems orderId db tq tp items).1.books bid).isSome
      = true := by
  obtain ⟨b, hb⟩ := Option.isSome_iff_exists.mp h
  rw [materializeItems_stock orderId items db tq tp bid b hb]
  rfl

theorem materializeItems_totals (orderId : Nat) (items : List TxItem) :
    ∀ (db : DB) (tq : Int) (tp : Rat),
      (∀ i ∈ items, (findBookUnique db.books i.book_id).isSome = true) →
      (materializeItems orderId db tq tp items).2.1
          = tq + (items.map (fun i => i.quantity)).sum ∧
      (materializeItems orderId db tq tp items).2.2
          = tp + (items.map (fun i =>
              priceAt db.books i.book_id * (i.quantity : Rat))).sum := by
  induction items with
  | nil => intro db tq tp _; simp [materializeItems]
  | cons item rest ih =>
    intro db tq tp hcov
    obtain ⟨book, hfb⟩ :=
      Option.isSome_iff_exists.mp (hcov item (List.mem_cons_self _ _))
    simp only [materializeItems, hfb]
    have hcov2 : ∀ i ∈ rest,
        (findBookUnique (decStock book.id item.quantity db.books) i.book_id).isSome
          = true := by
      intro i hi
      rw [findBookUnique_decStock_isSome]
      exact hcov i (List.mem_cons_of_mem _ hi)
    obtain ⟨h1, h2⟩ := ih
      { db with
        orderItems :=
          db.orderItems ++ [⟨db.nextOrderItemId, orderId, book.id, item.quantity⟩],
        nextOrderItemId := db.nextOrderItemId + 1,
        books := decStock book.id item.quantity db.books }
      (tq + item.quantity) (tp + book.price * (item.quantity : Rat)) hcov2
    simp only [priceAt_decStock] at h2
    have hpb : priceAt db.books item.book_id = book.price := by
      unfold priceAt
      rw [hfb]
    constructor
    · exact h1.trans (by simp only [List.map_cons, List.sum_cons]; ring)
    · exact h2.trans (by simp only [List.map_cons, List.sum_cons, hpb]; ring)

theorem materializeItems_orderItems (orderId : Nat) (items : List TxItem) :
    ∀ (db : DB) (tq : Int) (tp : Rat),
      ∃ new : List OrderItem,
        (materializeItems orderId db tq tp items).1.orderItems
            = db.orderItems ++ new ∧
        ∀ oi ∈ new, oi.order_id = orderId ∧
          (findBookUnique (materializeItems orderId db tq tp items).1.books
              oi.book_id).isSome = true := by
  induction items with
  | nil =>
    intro db tq tp
    exact ⟨[], by simp [materializeItems], by simp⟩
  | cons item rest ih =>
    intro db tq tp
    cases hfb : findBookUnique db.books item.book_id with
    | none =>
      simp only [materializeItems, hfb]
      exact ih _ _ _
    | some book =>
      simp only [materializeItems, hfb]
      obtain ⟨new, hnew, hcov⟩ := ih
        { db with
          orderItems :=
            db.orderItems ++ [⟨db.nextOrderItemId, orderId, book.id, item.quantity⟩],
          nextOrderItemId := db.nextOrderItemId + 1,
          books := decStock book.id item.quantity db.books }
        (tq + item.quantity) (tp + book.price * (item.quantity : Rat))
      refine ⟨⟨db.nextOrderItemId, orderId, book.id, item.quantity⟩ :: new,
        hnew.trans (by simp), ?_⟩
      intro oi hoi
      rcases List.mem_cons.mp hoi with h | h
      · subst h
        refine ⟨rfl, ?_⟩
        apply materializeItems_books_isSome
        show (findBookUnique (decStock book.id item.quantity db.books) book.id).isSome
          = true
        rw [findBookUnique_decStock_isSome, findBookUnique_id _ _ _ hfb, hfb]
        rfl
      · exact hcov oi h

theorem genresCover_decStock (genres : List Genre) (books : List Book)
    (tid : String) (q : Int) (h : genresCover genres books) :
    genresCover genres (decStock tid q books) := by
  intro b hb
  obtain ⟨b0, hb0, rfl⟩ := List.mem_map.mp hb
  have hg : (if b0.id == tid then
      { b0 with stock_quantity := b0.stock_quantity - q } else b0).genre_id
      = b0.genre_id := by
    by_cases hc : b0.id = tid <;> simp [hc]
  rw [hg]
  exact h b0 hb0

theorem materializeItems_genresCover (orderId : Nat) (items : List TxItem) :
    ∀ (db : DB) (tq : Int) (tp : Rat),
      genresCover db.genres db.books →
      genresCover (materializeItems orderId db tq tp items).1.genres
        (materializeItems orderId db tq tp items).1.books := by
  induction items with
  | nil =>
    intro db tq tp h
    simpa [materializeItems] using h
  | cons item rest ih =>
    intro db tq tp h
    cases hfb : findBookUnique db.books item.book_id with
    | none =>
      simp only [materializeItems, hfb]
      exact ih _ _ _ h
    | some book =>
      simp only [materializeItems, hfb]
      apply ih
      show genresCover db.genres (decStock book.id item.quantity db.books)
      exact genresCover_decStock _ _ _ _ h

/-! ## Lemmas about response shaping -/

theorem buildRespItem_isSome (db : DB) (oi : OrderItem)
    (hg : genresCover db.genres db.books)
    (hb : (findBookUnique db.books oi.book_id).isSome = true) :
    (buildRespItem db oi).isSome = true := by
  obtain ⟨b, hfb⟩ := Option.isSome_iff_exists.mp hb
  obtain ⟨g, hfg⟩ :=
    Option.isSome_iff_exists.mp (hg b (findBookUnique_mem _ _ _ hfb))
  simp [buildRespItem, hfb, hfg]

theorem buildRespItems_isSome (db : DB) (hg : genresCover db.genres db.books) :
    ∀ ois : List OrderItem,
      (∀ oi ∈ ois, (findBookUnique db.books oi.book_id).isSome = true) →
      ∃ ris, buildRespItems db ois = some ris := by
  intro ois
  induction ois with
  | nil => intro _; exact ⟨[], rfl⟩
  | cons oi rest ih =>
    intro hcov
    obtain ⟨ri, hri⟩ := Option.isSome_iff_exists.mp
      (buildRespItem_isSome db oi hg (hcov oi (List.mem_cons_self _ _)))
    obtain ⟨ris, hris⟩ := ih (fun x hx => hcov x (List.mem_cons_of_mem _ hx))
    exact ⟨ri :: ris, by simp [buildRespItems, hri, hris]⟩

theorem buildRespItem_subtotal (db : DB) (oi : OrderItem) (ri : TxRespItem)
    (h : buildRespItem db oi = some ri) :
    ri.subtotal = ri.book.price * (ri.quantity : Rat) := by
  unfold buildRespItem at h
  split at h
  · cases h
  · split at h
    · cases h
    · cases h
      rfl

theorem buildRespItems_subtotal (db : DB) :
    ∀ (ois : List OrderItem) (ris : List TxRespItem),
      buildRespItems db ois = some ris →
      ∀ ri ∈ ris, ri.subtotal = ri.book.price * (ri.quantity : Rat) := by
  intro ois
  induction ois with
  | nil =>
    intro ris h ri hri
    simp only [buildRespItems, Option.some.injEq] at h
    subst h
    cases hri
  | cons oi rest ih =>
    intro ris h ri hri
    simp only [buildRespItems] at h
    cases h1 : buildRespItem db oi with
    | none => rw [h1] at h; cases h
    | some r0 =>
      cases h2 : buildRespItems db rest with
      | none => rw [h1, h2] at h; cases h
      | some rs =>
        rw [h1, h2] at h
        simp only [Option.some.injEq] at h
        subst h
        rcases List.mem_cons.mp hri with h | h
        · subst h
          exact buildRespItem_subtotal db oi ri h1
        · exact ih rs h2 ri h

/-! ## Lemmas about the pre-validation pass -/

theorem validateItems_none_of_valid (db : DB) :
    ∀ items : List TxItem,
      (∀ i ∈ items, itemValid db i = true) → validateItems db items = none := by
  intro items
  induction items with
  | nil => intro _; rfl
  | cons item rest ih =>
    intro hv
    have hval := hv item (List.mem_cons_self _ _)
    unfold itemValid at hval
    simp only [Bool.and_eq_true, Bool.not_eq_true', beq_eq_false_iff_ne,
      decide_eq_true_eq] at hval
    obtain ⟨⟨hne, hpos⟩, hmatch⟩ := hval
    cases hfb : findBookFirst db.books item.book_id with
    | none => rw [hfb] at hmatch; cases hmatch
    | some b =>
      rw [hfb] at hmatch
      simp only [decide_eq_true_eq] at hmatch
      simp only [validateItems, hfb]
      rw [if_neg (by push_neg; exact ⟨hne, by omega⟩), if_neg (by omega),
        if_neg (by omega)]
      exact ih (fun i hi => hv i (List.mem_cons_of_mem _ hi))

theorem itemValid_of_validateItems_none (db : DB) :
    ∀ items : List TxItem,
      validateItems db items = none → ∀ i ∈ items, itemValid db i = true := by
  intro items
  induction items with
  | nil => intro _ i hi; cases hi
  | cons item rest ih =>
    intro h i hi
    simp only [validateItems] at h
    by_cases h1 : item.book_id = "" ∨ item.quantity = 0
    · rw [if_pos h1] at h; cases h
    · rw [if_neg h1] at h
      by_cases h2 : item.quantity ≤ 0
      · rw [if_pos h2] at h; cases h
      · rw [if_neg h2] at h
        cases hfb : findBookFirst db.books item.book_id with
        | none => simp only [hfb] at h; cases h
        | some b =>
          simp only [hfb] at h
          by_cases h3 : b.stock_quantity < item.quantity
          · rw [if_pos h3] at h; cases h
          · rw [if_neg h3] at h
            rcases List.mem_cons.mp hi with hh | hh
            · subst hh
              push_neg at h1
              simp only [itemValid, hfb, Bool.and_eq_true, Bool.not_eq_true',
                beq_eq_false_iff_ne, decide_eq_true_eq]
              exact ⟨⟨h1.1, by omega⟩, by omega⟩
            · exact ih h i hh

theorem validateItems_statusCode (db : DB) :
    ∀ (items : List TxItem) (r : TxResp),
      validateItems db items = some r →
      r.statusCode = 400 ∨ r.statusCode = 404 := by
  intro items
  induction items with
  | nil => intro r h; cases h
  | cons item rest ih =>
    intro r h
    simp only [validateItems] at h
    by_cases h1 : item.book_id = "" ∨ item.quantity = 0
    · rw [if_pos h1] at h
      cases h
      exact Or.inl rfl
    · rw [if_neg h1] at h
      by_cases h2 : item.quantity ≤ 0
      · rw [if_pos h2] at h
        cases h
        exact Or.inl rfl
      · rw [if_neg h2] at h
        cases hfb : findBookFirst db.books item.book_id with
        | none =>
          simp only [hfb] at h
          cases h
          exact Or.inr rfl
        | some b =>
          simp only [hfb] at h
          by_cases h3 : b.stock_quantity < item.quantity
          · rw [if_pos h3] at h
            cases h
            exact Or.inl rfl
          · rw [if_neg h3] at h
            exact ih r h

theorem validateItems_insufficient (db : DB) :
    ∀ items : List TxItem,
      (∀ i ∈ items, ¬ i.book_id = "" ∧ 0 < i.quantity ∧
        (findBookFirst db.books i.book_id).isSome = true) →
      (∃ i ∈ items, ∃ b, findBookFirst db.books i.book_id = some b ∧
        b.stock_quantity < i.quantity) →
      ∃ i ∈ items, ∃ b, findBookFirst db.books i.book_id = some b ∧
        b.stock_quantity < i.quantity ∧
        validateItems db items =
          some (.badRequest
            (insufficientStockMsg b.title b.stock_quantity i.quantity)) := by
  intro items
  induction items with
  | nil =>
    intro _ hbad
    obtain ⟨i, hi, _⟩ := hbad
    cases hi
  | cons item rest ih =>
    intro hwf hbad
    obtain ⟨hne, hpos, hsome⟩ := hwf item (List.mem_cons_self _ _)
    obtain ⟨b, hfb⟩ := Option.isSome_iff_exists.mp hsome
    by_cases hins : b.stock_quantity < item.quantity
    · refine ⟨item, List.mem_cons_self _ _, b, hfb, hins, ?_⟩
      simp only [validateItems, hfb]
      rw [if_neg (by push_neg; exact ⟨hne, by omega⟩), if_neg (by omega),
        if_pos hins]
    · have hbad2 : ∃ i ∈ rest, ∃ b2, findBookFirst db.books i.book_id = some b2 ∧
          b2.stock_quantity < i.quantity := by
        obtain ⟨i, hi, b2, hfb2, hlt⟩ := hbad
        rcases List.mem_cons.mp hi with hh | hh
        · subst hh
          rw [hfb] at hfb2
          cases hfb2
          exact absurd hlt hins
        · exact ⟨i, hh, b2, hfb2, hlt⟩
      obtain ⟨i, hi, b2, hfb2, hlt, hrec⟩ :=
        ih (fun i hi => hwf i (List.mem_cons_of_mem _ hi)) hbad2
      refine ⟨i, List.mem_cons_of_mem _ hi, b2, hfb2, hlt, ?_⟩
      simp only [validateItems, hfb]
      rw [if_neg (by push_neg; exact ⟨hne, by omega⟩), if_neg (by omega),
        if_neg (by omega)]
      exact hrec

/-! ## Lemmas about `createTransaction` as a whole -/

theorem createTransaction_cases (db : DB) (now : Nat) (req : TxReq) :
    (createTransaction db now req).1 = db ∨
    ∃ uid user items, req.user_id = some uid ∧ ¬ uid = "" ∧
      req.items = some items ∧ ¬ items = [] ∧
      findUser db.users uid = some user ∧ validateItems db items = none ∧
      createTransaction db now req = createTransactionGo db now uid user items := by
  cases hu : req.user_id with
  | none => exact Or.inl (by simp [createTransaction, hu])
  | some uid =>
    by_cases hue : uid = ""
    · exact Or.inl (by simp [createTransaction, hu, hue])
    · cases hit : req.items with
      | none => exact Or.inl (by simp [createTransaction, hu, hue, hit])
      | some items =>
        by_cases hemp : items = []
        · exact Or.inl (by simp [createTransaction, hu, hue, hit, hemp])
        · have hemp' : items.isEmpty = false := List.isEmpty_eq_false.mpr hemp
          cases hfu : findUser db.users uid with
          | none => exact Or.inl (by simp [createTransaction, hu, hue, hit, hemp', hfu])
          | some user =>
            cases hval : validateItems db items with
            | some r =>
              exact Or.inl (by simp [createTransaction, hu, hue, hit, hemp', hfu, hval])
            | none =>
              exact Or.inr ⟨uid, user, items, rfl, hue, rfl, hemp, hfu, hval,
                by simp [createTransaction, hu, hue, hit, hemp', hfu, hval]⟩

theorem createTransaction_of_validate_some (db : DB) (now : Nat) (req : TxReq)
    (uid : String) (user : User) (items : List TxItem) (r : TxResp)
    (hu : req.user_id = some uid) (hue : ¬ uid = "")
    (hit : req.items = some items) (hemp : ¬ items = [])
    (hfu : findUser db.users uid = some user)
    (hval : validateItems db items = some r) :
    createTransaction db now req = (db, r) := by
  simp [createTransaction, hu, hue, hit, List.isEmpty_eq_false.mpr hemp, hfu, hval]

theorem createTransaction_go_of_valid (db : DB) (now : Nat) (req : TxReq)
    (uid : String) (user : User) (items : List TxItem)
    (hu : req.user_id = some uid) (hue : ¬ uid = "")
    (hit : req.items = some items) (hemp : ¬ items = [])
    (hfu : findUser db.users uid = some user)
    (hval : validateItems db items = none) :
    createTransaction db now req = createTransactionGo db now uid user items := by
  simp [createTransaction, hu, hue, hit, List.isEmpty_eq_false.mpr hemp, hfu, hval]

theorem createTransaction_created_inv (db : DB) (now : Nat) (req : TxReq)
    (h : ((createTransaction db now req).2).statusCode = 201) :
    ∃ uid user items, req.user_id = some uid ∧ ¬ uid = "" ∧
      req.items = some items ∧ ¬ items = [] ∧
      findUser db.users uid = some user ∧ validateItems db items = none ∧
      createTransaction db now req = createTransactionGo db now uid user items := by
  cases hu : req.user_id with
  | none => simp [createTransaction, hu, TxResp.statusCode] at h
  | some uid =>
    by_cases hue : uid = ""
    · simp [createTransaction, hu, hue, TxResp.statusCode] at h
    · cases hit : req.items with
      | none => simp [createTransaction, hu, hue, hit, TxResp.statusCode] at h
      | some items =>
        by_cases hemp : items = []
        · simp [createTransaction, hu, hue, hit, hemp, TxResp.statusCode] at h
        · have hemp' : items.isEmpty = false := List.isEmpty_eq_false.mpr hemp
          cases hfu : findUser db.users uid with
          | none => simp [createTransaction, hu, hue, hit, hemp', hfu, TxResp.statusCode] at h
          | some user =>
            cases hval : validateItems db items with
            | some r =>
              rw [createTransaction_of_validate_some db now req uid user items r
                hu hue hit hemp hfu hval] at h
              rcases validateItems_statusCode db items r hval with h4 | h4 <;>
                simp only at h <;> omega
            | none =>
              exact ⟨uid, user, items, rfl, hue, rfl, hemp, hfu, hval,
                createTransaction_go_of_valid db now req uid user items
                  hu hue hit hemp hfu hval⟩

theorem orderShell_books (db : DB) (uid : String) (now : Nat) :
    (orderShell db uid now).books = db.books := rfl

theorem createTransactionGo_books (db : DB) (now : Nat) (uid : String)
    (user : User) (items : List TxItem) :
    (createTransactionGo db now uid user items).1.books =
      (materializeItems db.nextOrderId (orderShell db uid now) 0 0 items).1.books := by
  unfold createTransactionGo
  rcases hm : materializeItems db.nextOrderId (orderShell db uid now) 0 0 items
    with ⟨dbM, tq, tp⟩
  simp only [hm]
  cases hb : buildRespItems (finalizeOrder dbM db.nextOrderId tp)
      (newOrderItems (finalizeOrder dbM db.nextOrderId tp) db.nextOrderId) with
  | none => simp [finalizeOrder]
  | some ris => simp [hb, finalizeOrder]

theorem createTransactionGo_spec (db : DB) (now : Nat) (uid : String) (user : User)
    (items : List TxItem)
    (hcov : ∀ i ∈ items, (findBookUnique db.books i.book_id).isSome = true)
    (hgc : genresCover db.genres db.books)
    (hfresh : ∀ oi ∈ db.orderItems, oi.order_id < db.nextOrderId) :
    ∃ ris, (createTransactionGo db now uid user items).2 = .created
      ⟨db.nextOrderId, ⟨user.id, user.username, user.email⟩,
        (items.map (fun i => i.quantity)).sum,
        (items.map (fun i => priceAt db.books i.book_id * (i.quantity : Rat))).sum,
        ris, now⟩ ∧
      ∀ ri ∈ ris, ri.subtotal = ri.book.price * (ri.quantity : Rat) := by
  rcases hm : materializeItems db.nextOrderId (orderShell db uid now) 0 0 items
    with ⟨dbM, tq, tp⟩
  have ht := materializeItems_totals db.nextOrderId items (orderShell db uid now) 0 0 hcov
  rw [hm] at ht
  obtain ⟨ht1, ht2⟩ := ht
  simp only [zero_add] at ht1 ht2
  have hoi := materializeItems_orderItems db.nextOrderId items (orderShell db uid now) 0 0
  rw [hm] at hoi
  obtain ⟨new, hnew, hcovnew⟩ := hoi
  have hgcM := materializeItems_genresCover db.nextOrderId items
    (orderShell db uid now) 0 0 hgc
  rw [hm] at hgcM
  have hfr := materializeItems_frame db.nextOrderId items (orderShell db uid now) 0 0
  rw [hm] at hfr
  have hfilter : newOrderItems (finalizeOrder dbM db.nextOrderId tp) db.nextOrderId
      = new := by
    show (finalizeOrder dbM db.nextOrderId tp).orderItems.filter
      (fun oi => oi.order_id == db.nextOrderId) = new
    have : (finalizeOrder dbM db.nextOrderId tp).orderItems = dbM.orderItems := rfl
    rw [this, hnew]
    show (db.orderItems ++ new).filter (fun oi => oi.order_id == db.nextOrderId) = new
    rw [List.filter_append]
    rw [List.filter_eq_nil_iff.mpr (fun oi hoi2 => by
      simp only [Bool.not_eq_true, beq_eq_false_iff_ne]
      exact Nat.ne_of_lt (hfresh oi hoi2))]
    rw [List.filter_eq_self.mpr (fun oi hoi2 => by
      simp only [beq_iff_eq]
      exact (hcovnew oi hoi2).1)]
    rfl
  have hgcF : genresCover (finalizeOrder dbM db.nextOrderId tp).genres
      (finalizeOrder dbM db.nextOrderId tp).books := hgcM
  have hcovF : ∀ oi ∈ new,
      (findBookUnique (finalizeOrder dbM db.nextOrderId tp).books oi.book_id).isSome
        = true := fun oi hoi2 => (hcovnew oi hoi2).2
  obtain ⟨ris, hris⟩ := buildRespItems_isSome _ hgcF new hcovF
  refine ⟨ris, ?_, buildRespItems_subtotal _ new ris hris⟩
  simp only [createTransactionGo, hm, hfilter, hris]
  simp only [ht1, ht2, orderShell_books]

/-! ## Lemmas about the genre tombstone and the statistics aggregation -/

theorem genre_mark_pred_fix (gid tid : String) (now : Nat) (g : Genre) :
    ((if g.id == tid then { g with deleted_at := some now } else g).id == gid)
      = (g.id == gid) := by
  cases h : g.id == tid <;> simp [h]

theorem findGenreUnique_mark (genres : List Genre) (gid tid : String) (now : Nat) :
    findGenreUnique (genres.map (fun g =>
        if g.id == tid then { g with deleted_at := some now } else g)) gid
      = (findGenreUnique genres gid).map (fun g =>
        if g.id == tid then { g with deleted_at := some now } else g) := by
  unfold findGenreUnique
  exact find?_map_of_fix _ _ (fun g => genre_mark_pred_fix gid tid now g) genres

theorem pickTop_ne_none (a : String × Nat) (t : List (String × Nat)) :
    ¬ pickTop (a :: t) = none := by
  simp only [pickTop]
  cases pickTop t with
  | none => simp
  | some q => by_cases hc : a.2 < q.2 <;> simp [hc]

theorem pickTop_spec : ∀ (l : List (String × Nat)) (p : String × Nat),
    pickTop l = some p → p ∈ l ∧ ∀ q ∈ l, q.2 ≤ p.2 := by
  intro l
  induction l with
  | nil => intro p h; cases h
  | cons a t ih =>
    intro p h
    simp only [pickTop] at h
    cases hrec : pickTop t with
    | none =>
      rw [hrec] at h
      cases h
      refine ⟨List.mem_cons_self _ _, ?_⟩
      intro q hq
      rcases List.mem_cons.mp hq with rfl | hq
      · exact le_refl _
      · cases t with
        | nil => cases hq
        | cons b s => exact absurd hrec (pickTop_ne_none b s)
    | some q0 =>
      simp only [hrec] at h
      obtain ⟨hmem0, hmax0⟩ := ih q0 hrec
      by_cases hc : a.2 < q0.2
      · rw [if_pos hc] at h
        cases h
        refine ⟨List.mem_cons_of_mem _ hmem0, ?_⟩
        intro q hq
        rcases List.mem_cons.mp hq with rfl | hq
        · exact le_of_lt hc
        · exact hmax0 q hq
      · rw [if_neg hc] at h
        cases h
        refine ⟨List.mem_cons_self _ _, ?_⟩
        intro q hq
        rcases List.mem_cons.mp hq with rfl | hq
        · exact le_refl _
        · exact le_trans (hmax0 q hq) (not_lt.mp hc)

theorem pickLeast_ne_none (a : String × Nat) (t : List (String × Nat)) :
    ¬ pickLeast (a :: t) = none := by
  simp only [pickLeast]
  cases pickLeast t with
  | none => simp
  | some q => by_cases hc : q.2 < a.2 <;> simp [hc]

theorem pickLeast_spec : ∀ (l : List (String × Nat)) (p : String × Nat),
    pickLeast l = some p → p ∈ l ∧ ∀ q ∈ l, p.2 ≤ q.2 := by
  intro l
  induction l with
  | nil => intro p h; cases h
  | cons a t ih =>
    intro p h
    simp only [pickLeast] at h
    cases hrec : pickLeast t with
    | none =>
      rw [hrec] at h
      cases h
      refine ⟨List.mem_cons_self _ _, ?_⟩
      intro q hq
      rcases List.mem_cons.mp hq with rfl | hq
      · exact le_refl _
      · cases t with
        | nil => cases hq
        | cons b s => exact absurd hrec (pickLeast_ne_none b s)
    | some q0 =>
      simp only [hrec] at h
      obtain ⟨hmem0, hmin0⟩ := ih q0 hrec
      by_cases hc : q0.2 < a.2
      · rw [if_pos hc] at h
        cases h
        refine ⟨List.mem_cons_of_mem _ hmem0, ?_⟩
        intro q hq
        rcases List.mem_cons.mp hq with rfl | hq
        · exact le_of_lt hc
        · exact hmin0 q hq
      · rw [if_neg hc] at h
        cases h
        refine ⟨List.mem_cons_self _ _, ?_⟩
        intro q hq
        rcases List.mem_cons.mp hq with rfl | hq
        · exact le_refl _
        · exact le_trans (not_lt.mp hc) (hmin0 q hq)

theorem pickTop_isSome (l : List (String × Nat)) (h : ¬ l = []) :
    (pickTop l).isSome = true := by
  cases l with
  | nil => exact absurd rfl h
  | cons a t =>
    cases hrec : pickTop (a :: t) with
    | none => exact absurd hrec (pickTop_ne_none a t)
    | some p => rfl

theorem pickLeast_isSome (l : List (String × Nat)) (h : ¬ l = []) :
    (pickLeast l).isSome = true := by
  cases l with
  | nil => exact absurd rfl h
  | cons a t =>
    cases hrec : pickLeast (a :: t) with
    | none => exact absurd hrec (pickLeast_ne_none a t)
    | some p => rfl

theorem genreCounts_snd (db : DB) (p : String × Nat) (hp : p ∈ genreCounts db) :
    p.2 = (statRows db).count p.1 := by
  unfold genreCounts at hp
  obtain ⟨n, hn, rfl⟩ := List.mem_map.mp hp
  rfl

/-! ## The claims -/

/-- C1: for every request with a non-empty items list in which every item is
valid — its referenced book exists, is non-deleted, and has
`stock_quantity` at least the requested (positive) quantity —
`createTransaction` succeeds with 201, the returned `total_price` is the
sum over the items of book price times quantity, the returned
`total_quantity` is the sum of the item quantities, and every returned
item's `subtotal` equals its book price times its quantity.  The store is
assumed well-formed: an existing user, unique book ids, resolvable genre
references, and order-item ids below the order-id counter. -/
theorem c1_createTransaction_valid_totals
    (db : DB) (now : Nat) (uid : String) (items : List TxItem)
    (hue : ¬ uid = "") (hemp : ¬ items = [])
    (huser : (findUser db.users uid).isSome = true)
    (hitems : ∀ i ∈ items, itemValid db i = true)
    (_hnodup : (db.books.map (fun b => b.id)).Nodup)
    (hgc : genresCover db.genres db.books)
    (hfresh : ∀ oi ∈ db.orderItems, oi.order_id < db.nextOrderId) :
    ∃ d, (createTransaction db now ⟨some uid, some items⟩).2 = .created d ∧
      ((createTransaction db now ⟨some uid, some items⟩).2).statusCode = 201 ∧
      d.total_quantity = (items.map (fun i => i.quantity)).sum ∧
      d.total_price = (items.map (fun i =>
        priceAt db.books i.book_id * (i.quantity : Rat))).sum ∧
      ∀ ri ∈ d.items, ri.subtotal = ri.book.price * (ri.quantity : Rat) := by
  obtain ⟨user, hfu⟩ := Option.isSome_iff_exists.mp huser
  have hval : validateItems db items = none :=
    validateItems_none_of_valid db items hitems
  have hgo : createTransaction db now ⟨some uid, some items⟩
      = createTransactionGo db now uid user items :=
    createTransaction_go_of_valid db now _ uid user items rfl hue rfl hemp hfu hval
  have hcov : ∀ i ∈ items, (findBookUnique db.books i.book_id).isSome = true := by
    intro i hi
    have hv := hitems i hi
    unfold itemValid at hv
    simp only [Bool.and_eq_true] at hv
    obtain ⟨-, hmatch⟩ := hv
    cases hfb : findBookFirst db.books i.book_id with
    | none => rw [hfb] at hmatch; cases hmatch
    | some b =>
      exact findBookFirst_isSome_unique db.books i.book_id (by rw [hfb]; rfl)
  obtain ⟨ris, hcreated, hsub⟩ :=
    createTransactionGo_spec db now uid user items hcov hgc hfresh
  refine ⟨⟨db.nextOrderId, ⟨user.id, user.username, user.email⟩,
    (items.map (fun i => i.quantity)).sum,
    (items.map (fun i => priceAt db.books i.book_id * (i.quantity : Rat))).sum,
    ris, now⟩, ?_, ?_, rfl, rfl, hsub⟩
  · rw [hgo]
    exact hcreated
  · rw [hgo, hcreated]
    rfl

/-- C1 witness: the spec's own scenario — Dune priced 100 with stock 5,
a purchase of quantity 2 — instantiates the theorem. -/
theorem c1_witness :
    ∃ d, (createTransaction dbA 7 ⟨some "u1", some [⟨"b1", 2⟩]⟩).2 = .created d ∧
      ((createTransaction dbA 7 ⟨some "u1", some [⟨"b1", 2⟩]⟩).2).statusCode = 201 ∧
      d.total_quantity = (([⟨"b1", 2⟩] : List TxItem).map (fun i => i.quantity)).sum ∧
      d.total_price = (([⟨"b1", 2⟩] : List TxItem).map (fun i =>
        priceAt dbA.books i.book_id * (i.quantity : Rat))).sum ∧
      ∀ ri ∈ d.items, ri.subtotal = ri.book.price * (ri.quantity : Rat) :=
  c1_createTransaction_valid_totals dbA 7 "u1" [⟨"b1", 2⟩]
    (by decide) (by decide) (by decide) (by decide) (by decide)
    (by unfold genresCover; decide) (by decide)

/-- C2 counterexample: the claim quantifies over every request containing
an item whose quantity exceeds the book's stock, but when an earlier check
fails first — here the user does not exist — the controller answers 404,
not a 400 naming the book. -/
theorem c2_counterexample_unknown_user :
    (∃ b, findBookFirst dbB.books "b1" = some b ∧ b.stock_quantity < 10) ∧
    ((createTransaction dbB 0 ⟨some "ghost", some [⟨"b1", 10⟩]⟩).2).statusCode = 404 :=
  ⟨⟨duneB, rfl, by decide⟩, by decide⟩

/-- C2 (amended): for every request whose items include one exceeding its
book's stock, the store state is unchanged — no order row, order item, or
stock mutation; and when the request is otherwise valid (existing user,
well-formed items, every book found and non-deleted), the response is the
400 insufficient-stock error naming the book title, available stock, and
requested quantity. -/
theorem c2_amended_insufficient_stock (db : DB) (now : Nat) (req : TxReq)
    (items : List TxItem)
    (hit : req.items = some items)
    (hbad : ∃ i ∈ items, ∃ b, findBookFirst db.books i.book_id = some b ∧
      b.stock_quantity < i.quantity) :
    (createTransaction db now req).1 = db ∧
    (∀ uid, req.user_id = some uid → ¬ uid = "" →
      (findUser db.users uid).isSome = true →
      (∀ i ∈ items, ¬ i.book_id = "" ∧ 0 < i.quantity ∧
        (findBookFirst db.books i.book_id).isSome = true) →
      ∃ i ∈ items, ∃ b, findBookFirst db.books i.book_id = some b ∧
        b.stock_quantity < i.quantity ∧
        (createTransaction db now req).2 =
          .badRequest (insufficientStockMsg b.title b.stock_quantity i.quantity)) := by
  constructor
  · rcases createTransaction_cases db now req with hc |
      ⟨uid, user, items2, hu, hue, hit2, hemp, hfu, hval, hgo⟩
    · exact hc
    · exfalso
      rw [hit] at hit2
      obtain rfl := Option.some.inj hit2
      obtain ⟨i, hi, b, hfb, hlt⟩ := hbad
      have hval2 := itemValid_of_validateItems_none db items hval i hi
      unfold itemValid at hval2
      simp only [hfb, Bool.and_eq_true, decide_eq_true_eq] at hval2
      omega
  · intro uid hu hue huser hwf
    obtain ⟨user, hfu⟩ := Option.isSome_iff_exists.mp huser
    have hemp : ¬ items = [] := by
      obtain ⟨i, hi, -⟩ := hbad
      intro hcontra
      subst hcontra
      cases hi
    obtain ⟨i, hi, b, hfb, hlt, hvs⟩ := validateItems_insufficient db items hwf hbad
    refine ⟨i, hi, b, hfb, hlt, ?_⟩
    rw [createTransaction_of_validate_some db now req uid user items _
      hu hue hit hemp hfu hvs]

/-- C2 witness: the spec's scenario — Dune with stock 3, a request for 10
by an existing user — hits the amended theorem: state unchanged and the
exact insufficient-stock message. -/
theorem c2_witness :
    (createTransaction dbB 0 ⟨some "u1", some [⟨"b1", 10⟩]⟩).1 = dbB ∧
    (∀ uid, (⟨some "u1", some [⟨"b1", 10⟩]⟩ : TxReq).user_id = some uid → ¬ uid = "" →
      (findUser dbB.users uid).isSome = true →
      (∀ i ∈ ([⟨"b1", 10⟩] : List TxItem), ¬ i.book_id = "" ∧ 0 < i.quantity ∧
        (findBookFirst dbB.books i.book_id).isSome = true) →
      ∃ i ∈ ([⟨"b1", 10⟩] : List TxItem), ∃ b,
        findBookFirst dbB.books i.book_id = some b ∧
        b.stock_quantity < i.quantity ∧
        (createTransaction dbB 0 ⟨some "u1", some [⟨"b1", 10⟩]⟩).2 =
          .badRequest (insufficientStockMsg b.title b.stock_quantity i.quantity)) :=
  c2_amended_insufficient_stock dbB 0 ⟨some "u1", some [⟨"b1", 10⟩]⟩ [⟨"b1", 10⟩]
    rfl ⟨⟨"b1", 10⟩, by decide, duneB, rfl, by decide⟩

/-- C3: the invariant `stock_quantity >= 0` is NOT maintained by the code.
A request naming the same book twice, each quantity within the current
stock of 3, passes the per-item validation (each item is checked against
the same un-decremented stock), succeeds with 201, and leaves the stock at
-1. -/
theorem c3_duplicate_items_break_invariant :
    ((createTransaction dbB 0 ⟨some "u1", some [⟨"b1", 2⟩, ⟨"b1", 2⟩]⟩).2).statusCode
        = 201 ∧
    stockOf ((createTransaction dbB 0
        ⟨some "u1", some [⟨"b1", 2⟩, ⟨"b1", 2⟩]⟩).1).books "b1" = some (-1) :=
  ⟨by decide, by decide⟩

/-- C4: after every successful `createTransaction` each book's stock has
decreased by exactly the total quantity the request purchased for it (zero
for books the request does not name), and running the identical request a
second time — when it again succeeds — decrements the stock a second time:
the operation is not idempotent. -/
theorem c4_stock_decrements_exactly
    (db : DB) (now now2 : Nat) (req : TxReq) (items : List TxItem)
    (bid : String) (b : Book)
    (hit : req.items = some items)
    (h1 : ((createTransaction db now req).2).statusCode = 201)
    (h2 : ((createTransaction (createTransaction db now req).1 now2 req).2).statusCode
      = 201)
    (hb : findBookUnique db.books bid = some b) :
    stockOf (createTransaction db now req).1.books bid
      = some (b.stock_quantity -
        ((items.filter (fun i => i.book_id == bid)).map (fun i => i.quantity)).sum) ∧
    stockOf (createTransaction (createTransaction db now req).1 now2 req).1.books bid
      = some (b.stock_quantity -
        2 * ((items.filter (fun i => i.book_id == bid)).map (fun i => i.quantity)).sum) ∧
    ((∀ i ∈ items, ¬ i.book_id = bid) →
      stockOf (createTransaction db now req).1.books bid = some b.stock_quantity) := by
  obtain ⟨uid, user, items1, hu1, -, hit1, -, -, -, hgo1⟩ :=
    createTransaction_created_inv db now req h1
  rw [hit] at hit1
  obtain rfl := Option.some.inj hit1
  have hbooks1 : (createTransaction db now req).1.books
      = (materializeItems db.nextOrderId (orderShell db uid now) 0 0 items).1.books := by
    rw [hgo1]
    exact createTransactionGo_books db now uid user items
  have hstock1 :=
    materializeItems_stock db.nextOrderId items (orderShell db uid now) 0 0 bid b hb
  have h1stock : stockOf (createTransaction db now req).1.books bid
      = some (b.stock_quantity -
        ((items.filter (fun i => i.book_id == bid)).map (fun i => i.quantity)).sum) := by
    unfold stockOf
    rw [hbooks1, hstock1]
    rfl
  obtain ⟨uid2, user2, items2, hu2, -, hit2, -, -, -, hgo2⟩ :=
    createTransaction_created_inv (createTransaction db now req).1 now2 req h2
  rw [hit] at hit2
  obtain rfl := Option.some.inj hit2
  have hb1 : findBookUnique (createTransaction db now req).1.books bid
      = some { b with stock_quantity := b.stock_quantity -
        ((items.filter (fun i => i.book_id == bid)).map (fun i => i.quantity)).sum } := by
    rw [hbooks1]
    exact hstock1
  have hbooks2 : (createTransaction (createTransaction db now req).1 now2 req).1.books
      = (materializeItems (createTransaction db now req).1.nextOrderId
          (orderShell (createTransaction db now req).1 uid2 now2) 0 0 items).1.books := by
    rw [hgo2]
    exact createTransactionGo_books _ now2 uid2 user2 items
  have hstock2 := materializeItems_stock (createTransaction db now req).1.nextOrderId
    items (orderShell (createTransaction db now req).1 uid2 now2) 0 0 bid _ hb1
  refine ⟨h1stock, ?_, ?_⟩
  · unfold stockOf
    rw [hbooks2, hstock2]
    simp only [Option.map_some', Option.some.injEq]
    ring
  · intro hnone
    have hfilter : items.filter (fun i => i.book_id == bid) = [] :=
      List.filter_eq_nil_iff.mpr (fun i hi => by
        simp only [Bool.not_eq_true, beq_eq_false_iff_ne]
        exact hnone i hi)
    rw [hfilter] at h1stock
    simpa using h1stock

/-- C4 witness: Dune with stock 5, a purchase of 2 run twice (5 to 3 to 1),
and the untouched-book conclusion instantiated. -/
theorem c4_witness :
    stockOf (createTransaction dbA 0 ⟨some "u1", some [⟨"b1", 2⟩]⟩).1.books "b1"
      = some (duneA.stock_quantity -
        ((([⟨"b1", 2⟩] : List TxItem).filter (fun i => i.book_id == "b1")).map
          (fun i => i.quantity)).sum) ∧
    stockOf (createTransaction
        (createTransaction dbA 0 ⟨some "u1", some [⟨"b1", 2⟩]⟩).1 0
        ⟨some "u1", some [⟨"b1", 2⟩]⟩).1.books "b1"
      = some (duneA.stock_quantity -
        2 * ((([⟨"b1", 2⟩] : List TxItem).filter (fun i => i.book_id == "b1")).map
          (fun i => i.quantity)).sum) ∧
    ((∀ i ∈ ([⟨"b1", 2⟩] : List TxItem), ¬ i.book_id = "b1") →
      stockOf (createTransaction dbA 0 ⟨some "u1", some [⟨"b1", 2⟩]⟩).1.books "b1"
        = some duneA.stock_quantity) :=
  c4_stock_decrements_exactly dbA 0 0 ⟨some "u1", some [⟨"b1", 2⟩]⟩ [⟨"b1", 2⟩]
    "b1" duneA rfl (by decide) (by decide) rfl

/-- C5: the empty-title guard of `updateBook` is dead code.  The source
checks `updateData.title && updateData.title === ""`, and an empty string
is falsy, so the branch can never fire: updating Dune with a title of
blanks answers 200 and persists the empty title instead of failing with a
400 `ValidationError` and leaving the record untouched as the spec
requires. -/
theorem c5_blank_title_update_succeeds :
    ((updateBook dbA "b1" reqBlankTitle).2).statusCode = 200 ∧
    titleOf ((updateBook dbA "b1" reqBlankTitle).1).books "b1" = some "" :=
  ⟨by decide, by decide⟩

/-- C6 counterexample: a `createBook` request with all six required fields
present but `price` 0 — presence of every field — is still rejected by the
missing-fields check, because the source tests truthiness (`!price`) and 0
is falsy. -/
theorem c6_counterexample_zero_price :
    reqZeroPrice.title.isSome = true ∧ reqZeroPrice.writer.isSome = true ∧
    reqZeroPrice.publisher.isSome = true ∧ reqZeroPrice.price.isSome = true ∧
    reqZeroPrice.stock_quantity.isSome = true ∧ reqZeroPrice.genre_id.isSome = true ∧
    (createBook dbA "b9" reqZeroPrice).2 = .badRequest createBookMissingMsg := by
  decide

/-- C6 (amended): `createBook` fails with the missing-fields
`ValidationError` if and only if one of title, writer, publisher, price,
stock_quantity, genre_id is falsy — absent, an empty string, or zero.
Presence alone does not make the check pass: price 0 or stock_quantity 0
fails it. -/
theorem c6_amended_missing_fields_iff_falsy (db : DB) (newId : String)
    (req : BookReq) :
    (createBook db newId req).2 = .badRequest createBookMissingMsg ↔
      bookFieldMissing req = true := by
  constructor
  · intro h
    cases hb : bookFieldMissing req with
    | true => rfl
    | false =>
      exfalso
      have h6 := hb
      unfold bookFieldMissing at h6
      simp only [Bool.or_eq_false_iff] at h6
      obtain ⟨⟨⟨⟨⟨ht, hw⟩, hp⟩, hpr⟩, hs⟩, hg⟩ := h6
      rcases req with ⟨t, w, p, py, d, pr, s, g⟩
      cases t with
      | none => simp [strFalsy] at ht
      | some t =>
        cases w with
        | none => simp [strFalsy] at hw
        | some w =>
          cases p with
          | none => simp [strFalsy] at hp
          | some p =>
            cases pr with
            | none => simp [ratFalsy] at hpr
            | some pr =>
              cases s with
              | none => simp [intFalsy] at hs
              | some s =>
                cases g with
                | none => simp [strFalsy] at hg
                | some g =>
                  simp only [createBook, hb, Bool.false_eq_true, if_false] at h
                  split at h
                  · simp at h
                  · split at h
                    · simp at h
                    · simp at h
  · intro h
    simp [createBook, h]

/-- C6 witness: the amended equivalence at the concrete zero-price
request. -/
theorem c6_witness :
    (createBook dbA "b9" reqZeroPrice).2 = .badRequest createBookMissingMsg ↔
      bookFieldMissing reqZeroPrice = true :=
  c6_amended_missing_fields_iff_falsy dbA "b9" reqZeroPrice

/-- C7: deleting an existing non-deleted genre with at least one
non-deleted book fails with the 400 in-use error whose payload lists
exactly those books, leaving the store (and so the genre's null
`deleted_at`) unchanged; deleting one with no non-deleted books succeeds
and sets the tombstone to the current timestamp. -/
theorem c7_deleteGenre_in_use_guard (db : DB) (now : Nat) (gid : String)
    (g : Genre) (hg : findGenreFirst db.genres gid = some g) :
    g.deleted_at = none ∧
    (¬ activeBooksOfGenre db.books gid = [] →
      (deleteGenre db now gid).2 =
        .inUse (genreInUseMsg (activeBooksOfGenre db.books gid).length) g.name
          (activeBooksOfGenre db.books gid).length
          ((activeBooksOfGenre db.books gid).map bookSummary) ∧
      (deleteGenre db now gid).1 = db) ∧
    (activeBooksOfGenre db.books gid = [] →
      (deleteGenre db now gid).2 = .deleted g.id g.name (some now) ∧
      ∃ g2, findGenreUnique ((deleteGenre db now gid).1).genres gid = some g2 ∧
        g2.deleted_at = some now) := by
  have hdel : g.deleted_at = none := by
    have hpred := List.find?_some hg
    simp only [Bool.and_eq_true, beq_iff_eq, Option.isNone_iff_eq_none] at hpred
    exact hpred.2
  refine ⟨hdel, ?_, ?_⟩
  · intro hne
    have hlen : 0 < (activeBooksOfGenre db.books gid).length :=
      List.length_pos.mpr hne
    constructor
    · simp only [deleteGenre, hg]
      rw [if_pos hlen]
    · simp only [deleteGenre, hg]
      rw [if_pos hlen]
  · intro hnil
    have hlen : ¬ 0 < (activeBooksOfGenre db.books gid).length := by
      rw [hnil]
      simp
    constructor
    · simp only [deleteGenre, hg]
      rw [if_neg hlen]
    · simp only [deleteGenre, hg]
      rw [if_neg hlen]
      show ∃ g2, findGenreUnique (db.genres.map (fun g3 =>
        if g3.id == gid then { g3 with deleted_at := some now } else g3)) gid
          = some g2 ∧ g2.deleted_at = some now
      rw [findGenreUnique_mark]
      have hsome : (findGenreUnique db.genres gid).isSome = true :=
        findGenreFirst_isSome_unique db.genres gid (by rw [hg]; rfl)
      obtain ⟨g0, hg0⟩ := Option.isSome_iff_exists.mp hsome
      rw [hg0]
      have hid : g0.id = gid := by
        unfold findGenreUnique at hg0
        have hpred := List.find?_some hg0
        simpa using hpred
      exact ⟨_, rfl, by simp [hid]⟩

/-- C7 witness: the genre holding Dune is blocked from deletion, and its
row is untouched. -/
theorem c7_witness :
    gA.deleted_at = none ∧
    (¬ activeBooksOfGenre dbC.books "g1" = [] →
      (deleteGenre dbC 9 "g1").2 =
        .inUse (genreInUseMsg (activeBooksOfGenre dbC.books "g1").length) gA.name
          (activeBooksOfGenre dbC.books "g1").length
          ((activeBooksOfGenre dbC.books "g1").map bookSummary) ∧
      (deleteGenre dbC 9 "g1").1 = dbC) ∧
    (activeBooksOfGenre dbC.books "g1" = [] →
      (deleteGenre dbC 9 "g1").2 = .deleted gA.id gA.name (some 9) ∧
      ∃ g2, findGenreUnique ((deleteGenre dbC 9 "g1").1).genres "g1" = some g2 ∧
        g2.deleted_at = some 9) :=
  c7_deleteGenre_in_use_guard dbC 9 "g1" gA rfl

/-- C8: with referentially intact order items, `getTransactionStatistics`
on zero orders returns zero totals and null genres; with orders present
the average is the sum of `totalPrice` over the order count; and whenever
a most/least popular genre name is returned it attains the maximum
(respectively minimum) of the per-genre order-item counts restricted to
non-deleted books and genres, the names being non-null whenever that
grouping is non-empty. -/
theorem c8_statistics_spec (db : DB) (hInt : ordersCoverItems db = true) :
    (db.orders = [] → getTransactionStatistics db = ⟨0, 0, none, none⟩) ∧
    (¬ db.orders = [] →
      (getTransactionStatistics db).average_transaction_value =
        (db.orders.map (fun o => o.totalPrice)).sum / (db.orders.length : Rat)) ∧
    (∀ n, (getTransactionStatistics db).most_popular_genre = some n →
      (n, (statRows db).count n) ∈ genreCounts db ∧
      ∀ p ∈ genreCounts db, p.2 ≤ (statRows db).count n) ∧
    (∀ n, (getTransactionStatistics db).least_popular_genre = some n →
      (n, (statRows db).count n) ∈ genreCounts db ∧
      ∀ p ∈ genreCounts db, (statRows db).count n ≤ p.2) ∧
    (¬ genreCounts db = [] →
      ((getTransactionStatistics db).most_popular_genre).isSome = true ∧
      ((getTransactionStatistics db).least_popular_genre).isSome = true) := by
  refine ⟨?_, ?_, ?_, ?_, ?_⟩
  · intro hord
    have hitems : db.orderItems = [] := by
      cases hoi : db.orderItems with
      | nil => rfl
      | cons oi rest =>
        exfalso
        unfold ordersCoverItems at hInt
        rw [hoi, hord] at hInt
        simp at hInt
    simp [getTransactionStatistics, genreCounts, statRows, pickTop, pickLeast,
      hord, hitems]
  · intro hord
    simp [getTransactionStatistics, List.isEmpty_eq_false.mpr hord]
  · intro n h
    simp only [getTransactionStatistics, Option.map_eq_some'] at h
    obtain ⟨p, hp, hp1⟩ := h
    obtain ⟨hmem, hmax⟩ := pickTop_spec _ p hp
    have hsnd := genreCounts_snd db p hmem
    subst hp1
    constructor
    · have hpair : (p.1, (statRows db).count p.1) = p := by
        rw [← hsnd]
      rw [hpair]
      exact hmem
    · intro q hq
      have hle := hmax q hq
      omega
  · intro n h
    simp only [getTransactionStatistics, Option.map_eq_some'] at h
    obtain ⟨p, hp, hp1⟩ := h
    obtain ⟨hmem, hmin⟩ := pickLeast_spec _ p hp
    have hsnd := genreCounts_snd db p hmem
    subst hp1
    constructor
    · have hpair : (p.1, (statRows db).count p.1) = p := by
        rw [← hsnd]
      rw [hpair]
      exact hmem
    · intro q hq
      have hle := hmin q hq
      omega
  · intro hne
    constructor
    · show ((pickTop (genreCounts db)).map (fun p => p.1)).isSome = true
      cases hpt : pickTop (genreCounts db) with
      | none =>
        exfalso
        cases hgc : genreCounts db with
        | nil => exact hne hgc
        | cons a t =>
          rw [hgc] at hpt
          exact pickTop_ne_none a t hpt
      | some p => rfl
    · show ((pickLeast (genreCounts db)).map (fun p => p.1)).isSome = true
      cases hpt : pickLeast (genreCounts db) with
      | none =>
        exfalso
        cases hgc : genreCounts db with
        | nil => exact hne hgc
        | cons a t =>
          rw [hgc] at hpt
          exact pickLeast_ne_none a t hpt
      | some p => rfl

/-- C8 witness: a store with two orders (totals 100 and 50) and three
order items, two in Sci-Fi and one in Drama, satisfies the integrity
hypothesis and instantiates the statistics specification. -/
theorem c8_witness :
    (dbD.orders = [] → getTransactionStatistics dbD = ⟨0, 0, none, none⟩) ∧
    (¬ dbD.orders = [] →
      (getTransactionStatistics dbD).average_transaction_value =
        (dbD.orders.map (fun o => o.totalPrice)).sum / (dbD.orders.length : Rat)) ∧
    (∀ n, (getTransactionStatistics dbD).most_popular_genre = some n →
      (n, (statRows dbD).count n) ∈ genreCounts dbD ∧
      ∀ p ∈ genreCounts dbD, p.2 ≤ (statRows dbD).count n) ∧
    (∀ n, (getTransactionStatistics dbD).least_popular_genre = some n →
      (n, (statRows dbD).count n) ∈ genreCounts dbD ∧
      ∀ p ∈ genreCounts dbD, (statRows dbD).count n ≤ p.2) ∧
    (¬ genreCounts dbD = [] →
      ((getTransactionStatistics dbD).most_popular_genre).isSome = true ∧
      ((getTransactionStatistics dbD).least_popular_genre).isSome = true) :=
  c8_statistics_spec dbD (by decide)

/-- C9: `createGenre` compares names after trimming — an absent or
all-whitespace name fails with 400 and changes nothing, and a name that
trims to the (non-blank) name of an existing non-deleted genre fails with
409 Conflict and persists no new genre. -/
theorem c9_createGenre_trimmed (db : DB) (newId : String)
    (name : Option String) :
    ((name = none ∨ ∃ n, name = some n ∧ jsTrim n = "") →
      (createGenre db newId name).2 = .badRequest genreNameRequiredMsg ∧
      (createGenre db newId name).1 = db) ∧
    (∀ n g, name = some n → ¬ jsTrim n = "" → g ∈ db.genres →
      g.deleted_at = none → g.name = jsTrim n →
      (createGenre db newId name).2 = .conflict genreExistsMsg ∧
      (createGenre db newId name).1 = db) := by
  constructor
  · intro h
    cases h with
    | inl h =>
      subst h
      exact ⟨rfl, rfl⟩
    | inr h =>
      obtain ⟨n, rfl, htrim⟩ := h
      constructor <;> simp [createGenre, htrim]
  · intro n g hname htrim hmem hdel hgname
    subst hname
    have hfind : (db.genres.find? (fun g2 =>
        g2.name == jsTrim n && g2.deleted_at.isNone)).isSome = true := by
      rw [List.find?_isSome]
      exact ⟨g, hmem, by simp [hgname, hdel]⟩
    obtain ⟨g0, hg0⟩ := Option.isSome_iff_exists.mp hfind
    constructor <;> simp [createGenre, htrim, hg0]

/-- C9 witness: with a stored genre "Sci-Fi", creating " Sci-Fi " is a 409
conflict and creating blanks is a 400, both leaving the store unchanged. -/
theorem c9_witness :
    (createGenre dbA "g9" (some " Sci-Fi ")).2 = .conflict genreExistsMsg ∧
    (createGenre dbA "g9" (some " Sci-Fi ")).1 = dbA ∧
    (createGenre dbA "g9" (some "   ")).2 = .badRequest genreNameRequiredMsg ∧
    (createGenre dbA "g9" (some "   ")).1 = dbA :=
  ⟨((c9_createGenre_trimmed dbA "g9" (some " Sci-Fi ")).2 " Sci-Fi " gA rfl
      (by decide) (by decide) rfl (by decide)).1,
   ((c9_createGenre_trimmed dbA "g9" (some " Sci-Fi ")).2 " Sci-Fi " gA rfl
      (by decide) (by decide) rfl (by decide)).2,
   ((c9_createGenre_trimmed dbA "g9" (some "   ")).1
      (Or.inr ⟨"   ", rfl, by decide⟩)).1,
   ((c9_createGenre_trimmed dbA "g9" (some "   ")).1
      (Or.inr ⟨"   ", rfl, by decide⟩)).2⟩

/-- C10: in the materialization loop, an item whose `findUnique` re-fetch
returns nothing is silently skipped — the loop result is identical to the
loop without that item, so no error, no order item, no decrement, and a
zero contribution to both totals; and since that re-fetch does not filter
by the tombstone, a book whose `deleted_at` is set is still found, charged
(`price * quantity` added to the total), given an order item, and
decremented. -/
theorem c10_loop_skips_missing_and_ignores_tombstone :
    (∀ (db : DB) (orderId : Nat) (tq : Int) (tp : Rat) (item : TxItem)
        (rest : List TxItem),
      findBookUnique db.books item.book_id = none →
      materializeItems orderId db tq tp (item :: rest)
        = materializeItems orderId db tq tp rest) ∧
    (∀ (db : DB) (orderId : Nat) (tq : Int) (tp : Rat) (item : TxItem)
        (b : Book) (t : Nat),
      findBookUnique db.books item.book_id = some b → b.deleted_at = some t →
      (materializeItems orderId db tq tp [item]).1.orderItems
          = db.orderItems ++ [⟨db.nextOrderItemId, orderId, b.id, item.quantity⟩] ∧
      stockOf (materializeItems orderId db tq tp [item]).1.books b.id
          = some (b.stock_quantity - item.quantity) ∧
      (materializeItems orderId db tq tp [item]).2.2
          = tp + b.price * (item.quantity : Rat) ∧
      (materializeItems orderId db tq tp [item]).2.1 = tq + item.quantity) := by
  constructor
  · intro db orderId tq tp item rest hfb
    simp [materializeItems, hfb]
  · intro db orderId tq tp item b t hfb _hdel
    have hid : b.id = item.book_id := findBookUnique_id _ _ _ hfb
    have hfb2 : findBookUnique db.books b.id = some b := by
      rw [hid]
      exact hfb
    refine ⟨?_, ?_, ?_, ?_⟩
    · simp only [materializeItems, hfb]
    · simp only [materializeItems, hfb]
      show stockOf (decStock b.id item.quantity db.books) b.id
        = some (b.stock_quantity - item.quantity)
      unfold stockOf
      rw [findBookUnique_decStock, hfb2]
      simp
    · simp only [materializeItems, hfb]
    · simp only [materializeItems, hfb]

/-- C10 witness: an item naming an absent book id is dropped from the
loop, and the soft-deleted book `b3` is still charged, materialized, and
decremented. -/
theorem c10_witness :
    materializeItems 1 dbA 0 0 [⟨"zzz", 1⟩] = materializeItems 1 dbA 0 0 [] ∧
    ((materializeItems 1 dbDel 0 0 [⟨"b3", 2⟩]).1.orderItems
        = dbDel.orderItems ++ [⟨dbDel.nextOrderItemId, 1, bookDel.id, 2⟩] ∧
      stockOf (materializeItems 1 dbDel 0 0 [⟨"b3", 2⟩]).1.books bookDel.id
        = some (bookDel.stock_quantity - 2) ∧
      (materializeItems 1 dbDel 0 0 [⟨"b3", 2⟩]).2.2
        = 0 + bookDel.price * ((2 : Int) : Rat) ∧
      (materializeItems 1 dbDel 0 0 [⟨"b3", 2⟩]).2.1 = 0 + 2) :=
  ⟨c10_loop_skips_missing_and_ignores_tombstone.1 dbA 1 0 0 ⟨"zzz", 1⟩ [] rfl,
   c10_loop_skips_missing_and_ignores_tombstone.2 dbDel 1 0 0 ⟨"b3", 2⟩ bookDel 1
     rfl rfl⟩

end Bookstore
